import Mathlib

/-!
Verification of the arke-preprocessing-consumer orchestrator core against its
natural-language specification. The TypeScript sources under src/ are shallowly
embedded below: the task-id utilities (src/utils/task-id.ts), the TIFF-conversion
phase (src/phases/tiff-conversion.ts) and the HTTP callback route of the entry
worker (src/index.ts). The per-batch Durable Object (src/batch-do.ts) is not part
of the given sources; the one operation of it that the properties need, its
handleCallback, is modelled from the specification and marked as such.
-/

namespace Arke

/-- Status of one task, from the four-state task lifecycle of src/types/state.ts. -/
inductive TaskStatus
  | pending
  | processing
  | completed
  | failed
deriving DecidableEq

/-- Status field of a worker callback, from src/types/callback.ts. -/
inductive CbStatus
  | success
  | error
deriving DecidableEq

/-- A TIFF-conversion task, the TiffConversionTask of src/types/state.ts as used by
src/phases/tiff-conversion.ts. Optional fields are none until assigned. -/
structure Task where
  task_id : String
  status : TaskStatus
  input_r2_key : String
  input_file_name : String
  retry_count : Nat
  started_at : Option String := none
  completed_at : Option String := none
  error : Option String := none
  output_r2_key : Option String := none
  output_file_name : Option String := none
  output_file_size : Option Nat := none
  fly_machine_id : Option String := none
deriving DecidableEq

/-- TiffCallbackResult from src/types/callback.ts. The performance block is only
ever logged by the embedded code, so it is not carried. -/
structure TiffCallbackResult where
  task_id : String
  batch_id : String
  status : CbStatus
  output_r2_key : Option String := none
  output_file_name : Option String := none
  output_file_size : Option Nat := none
  error : Option String := none
deriving DecidableEq

/-- The slice of BatchState (src/types/state.ts) read or written by the embedded
operations: the three batch counters and the current phase's task map, carried as
its list of values in object insertion order (the keys are the task ids, unique in
a JS object). -/
structure BatchState where
  batch_id : String
  tasks_total : Nat
  tasks_completed : Nat
  tasks_failed : Nat
  current_phase_tasks : List Task
deriving DecidableEq

/-- File entry of a queue message, from src/types/queue.ts. Fields other than
r2_key and file_name are never read by the embedded operations. -/
structure QueueFileInfo where
  r2_key : String
  logical_path : String := ""
  file_name : String
  file_size : Nat := 0
  content_type : String := ""
deriving DecidableEq

/-- Directory group of a queue message, from src/types/queue.ts. -/
structure DirectoryGroup where
  directory_path : String := ""
  files : List QueueFileInfo
deriving DecidableEq

/-- Queue message, from src/types/queue.ts. Only batch_id and directories are read
by the embedded operations; the remaining metadata fields are omitted as inert. -/
structure QueueMessage where
  batch_id : String
  directories : List DirectoryGroup
deriving DecidableEq

/-- Wrap an integer to a signed 32-bit value: the effect of the JS expression
hash & hash (ToInt32) in simpleHash of src/utils/task-id.ts. -/
def toInt32 (n : Int) : Int :=
  (n + 2147483648) % 4294967296 - 2147483648

/-- One loop iteration of simpleHash: hash becomes ToInt32 of
((hash << 5) - hash + charCode). The shift itself already wraps to 32 bits in JS,
hence the inner toInt32 of hash * 32. Characters stand for the UTF-16 code units,
with which they agree on the basic multilingual plane. -/
def simpleHashStep (hash : Int) (c : Char) : Int :=
  toInt32 (toInt32 (hash * 32) - hash + c.toNat)

/-- Digit characters of JS Number.prototype.toString(36): 0-9 then a-z. -/
def base36Char (n : Nat) : Char :=
  if n < 10 then Char.ofNat (48 + n) else Char.ofNat (87 + n)

/-- Base-36 digits of n, most significant first, onto acc. The first argument is
structural fuel bounding the number of divisions; n + 1 always suffices because n
strictly shrinks at each division by 36. -/
def toBase36Aux : Nat → Nat → List Char → List Char
  | fuel + 1, n, acc =>
    if n = 0 then acc else toBase36Aux fuel (n / 36) (base36Char (n % 36) :: acc)
  | 0, _, acc => acc

/-- JS n.toString(36) for a nonnegative integer n (src/utils/task-id.ts line 25). -/
def toBase36 (n : Nat) : String :=
  if n = 0 then "0" else String.mk (toBase36Aux (n + 1) n [])

/-- simpleHash from src/utils/task-id.ts: the multiply-by-31 string hash folded
over the characters, wrapped to a signed 32-bit integer at every step, then
Math.abs and base-36 rendering. -/
def simpleHash (str : String) : String :=
  toBase36 (Int.natAbs (str.data.foldl simpleHashStep 0))

/-- generateTaskId from src/utils/task-id.ts lines 9-13. -/
def generateTaskId (batchId : String) (r2Key : String) : String :=
  batchId ++ "_tiff_" ++ simpleHash r2Key

/-- ASCII lower-casing of one character: the case folding performed by the i flag
of the regex in TiffConversionPhase.isTiff, on the ASCII range the code exercises. -/
def lowerChar (c : Char) : Char :=
  if 65 ≤ c.toNat ∧ c.toNat ≤ 90 then Char.ofNat (c.toNat + 32) else c

/-- TiffConversionPhase.isTiff (src/phases/tiff-conversion.ts lines 201-203): the
test of the anchored regex for a file name ending in .tif or .tiff,
case-insensitively. -/
def isTiff (fileName : String) : Bool :=
  let lower := fileName.data.map lowerChar
  List.isSuffixOf ['.', 't', 'i', 'f'] lower || List.isSuffixOf ['.', 't', 'i', 'f', 'f'] lower

/-- The task literal built for one discovered TIFF file
(src/phases/tiff-conversion.ts lines 29-35). -/
def mkTiffTask (batchId : String) (f : QueueFileInfo) : Task :=
  { task_id := generateTaskId batchId f.r2_key
    status := TaskStatus.pending
    input_r2_key := f.r2_key
    input_file_name := f.file_name
    retry_count := 0 }

/-- TiffConversionPhase.discover (src/phases/tiff-conversion.ts lines 21-47): two
nested loops pushing one task per TIFF file onto the accumulator. -/
def discover (m : QueueMessage) : List Task :=
  m.directories.foldl
    (fun acc d =>
      d.files.foldl
        (fun acc2 f => if isTiff f.file_name then acc2 ++ [mkTiffTask m.batch_id f] else acc2)
        acc)
    []

/-- The files of the message that isTiff accepts, in scan order: a helper for
stating properties of discover. -/
def qualifyingFiles (m : QueueMessage) : List QueueFileInfo :=
  m.directories.flatMap (fun d => d.files.filter (fun f => isTiff f.file_name))

/-- The Boolean test of the filter in executeBatch: t.status is the string
pending. -/
def isPending (t : Task) : Bool :=
  match t.status with
  | TaskStatus.pending => true
  | _ => false

/-- The Boolean test of the allDone check in executeBatch: t.status is completed
or failed. -/
def isTerminal (t : Task) : Bool :=
  match t.status with
  | TaskStatus.completed => true
  | TaskStatus.failed => true
  | _ => false

/-- The in-place update of a task whose spawn request was fulfilled
(src/phases/tiff-conversion.ts lines 90-93). -/
def procTask (t : Task) (now : String) : Task :=
  { t with status := TaskStatus.processing, started_at := some now }

/-- The spawn-result application loop of executeBatch (lines 86-98). The k-th
pending task of the list, for k below the batch size, was selected as
pendingTasks[k]; it becomes processing when its spawn promise was fulfilled (ok k)
and stays untouched when the spawn was rejected. Every other task is untouched. -/
def markSpawned : List Task → Nat → Nat → (Nat → Bool) → String → List Task
  | [], _, _, _, _ => []
  | t :: rest, k, batchSize, ok, now =>
    if isPending t then
      (if k < batchSize && ok k then procTask t now else t)
        :: markSpawned rest (k + 1) batchSize ok now
    else
      t :: markSpawned rest k batchSize ok now

/-- Result of one executeBatch call: the batch state after the wake (the JS method
mutates state in place), the returned more-work flag, and the pendingTasks array,
whose members are exactly the tasks for which spawn requests were issued. -/
structure ExecResult where
  state : BatchState
  moreWork : Bool
  spawned : List Task
deriving DecidableEq

/-- TiffConversionPhase.executeBatch (src/phases/tiff-conversion.ts lines 53-101).
Object.values enumerates the task map in insertion order, which is the order of
the list current_phase_tasks; the outcome of the spawn fan-out is the oracle ok,
giving for each selected index whether its Fly machine request was fulfilled. -/
def executeBatchS (s : BatchState) (batchSize : Nat) (ok : Nat → Bool) (now : String) :
    ExecResult :=
  let pendingTasks := (s.current_phase_tasks.filter isPending).take batchSize
  if pendingTasks.isEmpty then
    let allDone := s.current_phase_tasks.all isTerminal
    { state := s, moreWork := !allDone, spawned := [] }
  else
    { state := { s with current_phase_tasks := markSpawned s.current_phase_tasks 0 batchSize ok now }
      moreWork := true
      spawned := pendingTasks }

/-- TiffConversionPhase.handleCallback (src/phases/tiff-conversion.ts lines
163-188): returns the mutated task and the batch state with its counter update.
The task list itself is written back by the orchestrator, which owns the map. -/
def handleCallbackPhase (task : Task) (result : TiffCallbackResult) (s : BatchState)
    (now : String) : Task × BatchState :=
  match result.status with
  | CbStatus.success =>
    ({ task with
        status := TaskStatus.completed
        output_r2_key := result.output_r2_key
        output_file_name := result.output_file_name
        output_file_size := result.output_file_size
        completed_at := some now },
     { s with tasks_completed := s.tasks_completed + 1 })
  | CbStatus.error =>
    ({ task with status := TaskStatus.failed, error := result.error },
     { s with tasks_failed := s.tasks_failed + 1 })

/-- Lookup of state.current_phase_tasks[taskId]: the unique entry of the task map
with that key, i.e. the first match in the value list. -/
def findTask (tasks : List Task) (taskId : String) : Option Task :=
  tasks.find? (fun t => decide (t.task_id = taskId))

/-- Writing a mutated task object back under its key: replace the first entry
carrying taskId. -/
def replaceTask : List Task → String → Task → List Task
  | [], _, _ => []
  | t :: rest, taskId, t2 =>
    if t.task_id = taskId then t2 :: rest else t :: replaceTask rest taskId t2

/-- Modelled from the spec: PreprocessingDurableObject.handleCallback of
src/batch-do.ts, which is missing from the given sources (src/index.ts only
forwards to it). Following sections 4.2.3 and 4.4 of the spec, the orchestrator
locates the task by id and drops the callback when the task is absent or already
terminal; a worker-reported error consumes the per-task retry budget, resetting
the task to pending with retry_count incremented while retry_count is below the
limit; otherwise the current phase's reconcile fold (handleCallbackPhase, from the
source) is applied and the mutated task written back. The subsequent completion
re-evaluation and alarm scheduling of the orchestrator are outside this fold. -/
def handleCallbackDO (s : BatchState) (taskId : String) (result : TiffCallbackResult)
    (maxTaskRetries : Nat) (now : String) : BatchState :=
  match findTask s.current_phase_tasks taskId with
  | none => s
  | some t =>
    if t.status = TaskStatus.completed ∨ t.status = TaskStatus.failed then s
    else if result.status = CbStatus.error ∧ t.retry_count < maxTaskRetries then
      let t2 : Task := { t with retry_count := t.retry_count + 1, status := TaskStatus.pending }
      { s with current_phase_tasks := replaceTask s.current_phase_tasks taskId t2 }
    else
      let pr := handleCallbackPhase t result s now
      { pr.2 with current_phase_tasks := replaceTask s.current_phase_tasks taskId pr.1 }

/-- JS String.prototype.split for the single-character separator slash, as applied
to url.pathname in src/index.ts. -/
def splitSlashAux : List Char → List Char → List String
  | [], cur => [String.mk cur.reverse]
  | c :: rest, cur =>
    if c = '/' then String.mk cur.reverse :: splitSlashAux rest []
    else splitSlashAux rest (c :: cur)

/-- pathname.split of the slash character. -/
def splitSlash (s : String) : List String :=
  splitSlashAux s.data []

/-- Outcome of one HTTP request to the callback route: the response status and
whether the Durable Object's handleCallback was invoked (the only state
mutation on that path). -/
structure HttpResult where
  status : Nat
  mutated : Bool
deriving DecidableEq

/-- The callback route of the fetch handler in src/index.ts (lines 181-211)
together with its surrounding try and catch (lines 136 and 249-258), for a POST
whose pathname matched the callback route. parts[2] and parts[3] are the batch and
task ids; a missing id (undefined or empty, both falsy in JS) answers 400 before
anything else runs; a body that request.json() cannot parse throws, is caught by
the catch-all handler and answers 500; otherwise the Durable Object's
handleCallback is invoked and the route answers 200 with ok true. -/
def callbackRoute (pathname : String) (body : Option TiffCallbackResult) : HttpResult :=
  let parts := splitSlash pathname
  let batchId := parts.getD 2 ""
  let taskId := parts.getD 3 ""
  if batchId = "" ∨ taskId = "" then { status := 400, mutated := false }
  else
    match body with
    | none => { status := 500, mutated := false }
    | some _ => { status := 200, mutated := true }

/-- A task value no well-formed index ever yields: used as the default of list
indexing so that frame statements need no bounds hypotheses. Its status is failed,
so it is never pending. -/
def dummyTask : Task :=
  { task_id := ""
    status := TaskStatus.failed
    input_r2_key := ""
    input_file_name := ""
    retry_count := 0 }

/-- The task at position i of the value list, dummyTask beyond the end. -/
def taskAt (tasks : List Task) (i : Nat) : Task :=
  tasks.getD i dummyTask

/-- How many of the first i tasks are pending: the index a task at position i
would get in the pendingTasks selection of executeBatch. -/
def pendBefore : List Task → Nat → Nat
  | _, 0 => 0
  | [], _ + 1 => 0
  | t :: rest, i + 1 => (if isPending t then 1 else 0) + pendBefore rest i

/-- isPending reads exactly the pending status. -/
theorem isPending_iff (t : Task) : isPending t = true ↔ t.status = TaskStatus.pending := by
  cases h : t.status <;> simp [isPending, h]

/-- A task is not terminal exactly when it is pending or processing: the task
status type has just the four states. -/
theorem isTerminal_false_iff (t : Task) :
    isTerminal t = false ↔
      (t.status = TaskStatus.pending ∨ t.status = TaskStatus.processing) := by
  cases h : t.status <;> simp [isTerminal, h]

/-- The spawn-result application neither adds nor removes tasks. -/
theorem markSpawned_length (l : List Task) :
    ∀ k n ok now, (markSpawned l k n ok now).length = l.length := by
  induction l with
  | nil => intro k n ok now; rfl
  | cons t rest ih =>
    intro k n ok now
    by_cases hp : isPending t = true
    · simp [markSpawned, hp, ih]
    · simp [markSpawned, hp, ih]

/-- If some task of the list is pending, then after the spawn results are applied
some task is still pending or has moved to processing. -/
theorem markSpawned_exists_nonterminal (l : List Task) :
    ∀ k n ok now, (∃ t ∈ l, isPending t = true) →
      ∃ u ∈ markSpawned l k n ok now,
        (u.status = TaskStatus.pending ∨ u.status = TaskStatus.processing) := by
  induction l with
  | nil => intro k n ok now h; simp at h
  | cons t rest ih =>
    intro k n ok now h
    have hms : markSpawned (t :: rest) k n ok now =
        if isPending t then
          (if k < n && ok k then procTask t now else t)
            :: markSpawned rest (k + 1) n ok now
        else t :: markSpawned rest k n ok now := rfl
    by_cases hp : isPending t = true
    · rw [hms, if_pos hp]
      refine ⟨if k < n && ok k then procTask t now else t, List.mem_cons_self _ _, ?_⟩
      by_cases hk : (k < n && ok k) = true
      · rw [if_pos hk]; exact Or.inr rfl
      · rw [if_neg hk]; exact Or.inl ((isPending_iff t).mp hp)
    · rw [hms, if_neg hp]
      obtain ⟨x, hx, hxp⟩ := h
      rcases List.mem_cons.mp hx with hxt | hxr
    -- the witness cannot be the head, which is not pending
      · exact absurd (hxt ▸ hxp) hp
      · obtain ⟨u, hu, hups⟩ := ih k n ok now ⟨x, hxr, hxp⟩
        exact ⟨u, List.mem_cons_of_mem t hu, hups⟩

/-- C10: task ids can collide within a batch. With the batch id fixed, the two
distinct keys Aa and BB hash to the same signed 32-bit value 2112, so
generateTaskId renders the same base-36 digest for both and two distinct
qualifying files in one batch would be assigned the same task id. -/
theorem generateTaskId_collision_exists :
    generateTaskId "B1" "Aa" = generateTaskId "B1" "BB" ∧ ("Aa" : String) ≠ "BB" := by
  exact ⟨by decide, by decide⟩

/-- C7: generateTaskId is a pure function of its two arguments: equal batch ids
and equal keys give equal task ids on every invocation. The embedding carries no
process state, clock or randomness the result could depend on, so stability
across processes and restarts is purity of this function. -/
theorem generateTaskId_deterministic (b1 b2 k1 k2 : String) (hb : b1 = b2) (hk : k1 = k2) :
    generateTaskId b1 k1 = generateTaskId b2 k2 := by
  rw [hb, hk]

/-- Witness for C7 at the key of the spec's happy-path scenario. -/
theorem generateTaskId_deterministic_inst :
    generateTaskId "B1" "s/B1/a.tiff" = generateTaskId "B1" "s/B1/a.tiff" :=
  generateTaskId_deterministic "B1" "B1" "s/B1/a.tiff" "s/B1/a.tiff" rfl rfl

/-- C3: executeBatch reports more work exactly when, after the wake's spawn
results are applied, some task of the current phase is still pending or
processing; it returns false only when every task is completed or failed,
vacuously so for an empty task map. -/
theorem executeBatch_moreWork_iff_nonterminal (s : BatchState) (n : Nat) (ok : Nat → Bool)
    (now : String) :
    (executeBatchS s n ok now).moreWork = true ↔
      ∃ t ∈ (executeBatchS s n ok now).state.current_phase_tasks,
        (t.status = TaskStatus.pending ∨ t.status = TaskStatus.processing) := by
  by_cases hE : ((s.current_phase_tasks.filter isPending).take n).isEmpty = true
  · simp only [executeBatchS, hE, if_pos, if_true]
    constructor
    · intro hmw
      have hall : s.current_phase_tasks.all isTerminal = false := by
        cases hA : s.current_phase_tasks.all isTerminal
        · rfl
        · rw [hA] at hmw; exact absurd hmw (by simp)
      obtain ⟨x, hx, hxt⟩ := List.all_eq_false.mp hall
      exact ⟨x, hx, (isTerminal_false_iff x).mp (by
        cases hv : isTerminal x
        · rfl
        · exact absurd hv hxt)⟩
    · intro hex
      obtain ⟨x, hx, hxs⟩ := hex
      have hall : s.current_phase_tasks.all isTerminal = false :=
        List.all_eq_false.mpr ⟨x, hx, by
          rw [(isTerminal_false_iff x).mpr hxs]; simp⟩
      rw [hall]; rfl
  · simp only [executeBatchS, hE, if_neg, if_false]
    constructor
    · intro _
      have hne : (s.current_phase_tasks.filter isPending).take n ≠ [] := by
        intro hnil
        exact hE (List.isEmpty_iff.mpr hnil)
      obtain ⟨x, hx⟩ := List.exists_mem_of_ne_nil _ hne
      have hxf : x ∈ s.current_phase_tasks.filter isPending :=
        (List.take_sublist n _).mem hx
      have hxl : x ∈ s.current_phase_tasks := (List.mem_filter.mp hxf).1
      have hxp : isPending x = true := (List.mem_filter.mp hxf).2
      exact markSpawned_exists_nonterminal s.current_phase_tasks 0 n ok now ⟨x, hxl, hxp⟩
    · intro _
      rfl

/-- C4: in one executeBatch call at most batchSize tasks are selected, hence at
most batchSize spawn requests are issued, and every task selected for spawning is
a task of the current phase that had status pending at selection time. -/
theorem executeBatch_spawn_bound (s : BatchState) (n : Nat) (ok : Nat → Bool) (now : String) :
    (executeBatchS s n ok now).spawned.length ≤ n ∧
      ∀ t ∈ (executeBatchS s n ok now).spawned,
        t.status = TaskStatus.pending ∧ t ∈ s.current_phase_tasks := by
  by_cases hE : ((s.current_phase_tasks.filter isPending).take n).isEmpty = true
  · simp only [executeBatchS, hE, if_pos, if_true]
    exact ⟨Nat.zero_le n, by intro t ht; exact absurd ht (by simp)⟩
  · simp only [executeBatchS, hE, if_neg, if_false]
    refine ⟨List.length_take_le n _, ?_⟩
    intro t ht
    have htf : t ∈ s.current_phase_tasks.filter isPending :=
      (List.take_sublist n _).mem ht
    exact ⟨(isPending_iff t).mp (List.mem_filter.mp htf).2, (List.mem_filter.mp htf).1⟩

/-- C9 amended: the selection of tasks to spawn is deterministic, but its order is
the task map's enumeration order (the insertion order of the underlying JS
object, as Object.values yields it), not a lexicographic sort of task ids: the
tasks chosen are the first batchSize pending tasks of that enumeration. -/
theorem executeBatch_selection_enumeration_order (s : BatchState) (n : Nat) (ok : Nat → Bool)
    (now : String) :
    (executeBatchS s n ok now).spawned = (s.current_phase_tasks.filter isPending).take n := by
  by_cases hE : ((s.current_phase_tasks.filter isPending).take n).isEmpty = true
  · simp only [executeBatchS, hE, if_pos, if_true]
    exact (List.isEmpty_iff.mp hE).symm
  · simp only [executeBatchS, hE, if_neg, if_false]
    rfl

/-- A pending task whose id b is enumerated first by the task map. -/
def taskB : Task :=
  { task_id := "b"
    status := TaskStatus.pending
    input_r2_key := "kb"
    input_file_name := "b.tiff"
    retry_count := 0 }

/-- A pending task whose id a is lexicographically least but enumerated second. -/
def taskA : Task :=
  { task_id := "a"
    status := TaskStatus.pending
    input_r2_key := "ka"
    input_file_name := "a.tiff"
    retry_count := 0 }

/-- A batch whose task map enumerates the task with id b before the one with id
a, as a JS object does when b was inserted first. -/
def stateBA : BatchState :=
  { batch_id := "B1"
    tasks_total := 2
    tasks_completed := 0
    tasks_failed := 0
    current_phase_tasks := [taskB, taskA] }

/-- C9 counterexample: with batch size 1 and both tasks pending, executeBatch
selects the task with id b, the first in map enumeration order, even though a
pending task with the lexicographically smaller id a exists: the chosen tasks are
not the first batch-size pending tasks under lexicographic task-id order. -/
theorem selection_not_lexicographic :
    (executeBatchS stateBA 1 (fun _ => true) "T").spawned.map (fun t => t.task_id) = ["b"] ∧
      taskA ∈ stateBA.current_phase_tasks ∧ taskA.status = TaskStatus.pending ∧
      ("a" : String) < "b" ∧ ("a" : String) ≠ "b" := by
  refine ⟨by decide, by decide, by decide, ?_, by decide⟩
  rw [String.lt_iff_toList_lt]
  decide

/-- Indexing past the end yields the dummy task. -/
theorem taskAt_nil (i : Nat) : taskAt [] i = dummyTask := by
  cases i <;> rfl

/-- Indexing the head. -/
theorem taskAt_cons_zero (t : Task) (l : List Task) : taskAt (t :: l) 0 = t := rfl

/-- Indexing the tail. -/
theorem taskAt_cons_succ (t : Task) (l : List Task) (j : Nat) :
    taskAt (t :: l) (j + 1) = taskAt l j := rfl

/-- No task precedes position zero. -/
theorem pendBefore_zero (l : List Task) : pendBefore l 0 = 0 := by
  cases l <;> rfl

/-- Unfolding pendBefore over a head task. -/
theorem pendBefore_cons_succ (t : Task) (l : List Task) (j : Nat) :
    pendBefore (t :: l) (j + 1) = (if isPending t then 1 else 0) + pendBefore l j := rfl

/-- Pointwise characterization of the spawn-result application: the task at
position i is replaced by its processing version exactly when it was pending, its
pending rank (offset by the running index k0) is below the batch size, and its
spawn promise was fulfilled; every other position is untouched. -/
theorem markSpawned_taskAt (l : List Task) :
    ∀ k0 n ok now i,
      taskAt (markSpawned l k0 n ok now) i =
        (if isPending (taskAt l i) = true ∧ k0 + pendBefore l i < n ∧
            ok (k0 + pendBefore l i) = true
         then procTask (taskAt l i) now else taskAt l i) := by
  induction l with
  | nil =>
    intro k0 n ok now i
    have hms : markSpawned [] k0 n ok now = [] := rfl
    rw [hms, taskAt_nil, if_neg]
    intro hcond
    exact absurd hcond.1 (by simp [dummyTask, isPending])
  | cons t rest ih =>
    intro k0 n ok now i
    have hms : markSpawned (t :: rest) k0 n ok now =
        if isPending t then
          (if k0 < n && ok k0 then procTask t now else t)
            :: markSpawned rest (k0 + 1) n ok now
        else t :: markSpawned rest k0 n ok now := rfl
    cases i with
    | zero =>
      by_cases hp : isPending t = true
      · rw [hms, if_pos hp, taskAt_cons_zero, taskAt_cons_zero, pendBefore_zero,
          Nat.add_zero]
        by_cases h1 : k0 < n
        · by_cases h2 : ok k0 = true
          · rw [if_pos (by rw [h2]; simp [h1]), if_pos ⟨hp, h1, h2⟩]
          · rw [if_neg (by simp [h2]), if_neg (by intro hc; exact h2 hc.2.2)]
        · rw [if_neg (by simp [h1]), if_neg (by intro hc; exact h1 hc.2.1)]
      · rw [hms, if_neg hp, taskAt_cons_zero, taskAt_cons_zero, if_neg]
        intro hcond
        exact hp hcond.1
    | succ j =>
      by_cases hp : isPending t = true
      · rw [hms, if_pos hp, taskAt_cons_succ, taskAt_cons_succ, pendBefore_cons_succ,
          if_pos hp, ih (k0 + 1) n ok now j]
        have harith : k0 + (1 + pendBefore rest j) = k0 + 1 + pendBefore rest j := by omega
        rw [harith]
      · rw [hms, if_neg hp, taskAt_cons_succ, taskAt_cons_succ, pendBefore_cons_succ,
          if_neg hp, ih k0 n ok now j]
        have harith : k0 + (0 + pendBefore rest j) = k0 + pendBefore rest j := by omega
        rw [harith]

/-- If the filter of pending tasks is empty, no position holds a pending task. -/
theorem no_pending_of_filter_nil (l : List Task)
    (hf : l.filter isPending = []) (i : Nat) : isPending (taskAt l i) = false := by
  by_cases hi : i < l.length
  · have hmem : taskAt l i ∈ l := by
      rw [taskAt, List.getD_eq_getElem l dummyTask hi]
      exact List.getElem_mem hi
    have := List.filter_eq_nil_iff.mp hf _ hmem
    cases hv : isPending (taskAt l i)
    · rfl
    · exact absurd hv this
  · rw [taskAt, List.getD_eq_default l dummyTask (Nat.le_of_not_lt hi)]
    rfl

/-- C6: frame of the spawn fan-out. A failed spawn leaves its task exactly as it
was, pending with its retry_count untouched, and executeBatch changes none of the
batch counters; the only task change it ever makes is the transition of a
successfully spawned pending task to processing with started_at set to the wake
time. The characterization is positional: position i is updated exactly when its
task is pending, its pending rank is below the batch size and its spawn was
fulfilled. -/
theorem executeBatch_spawn_failure_frame (s : BatchState) (n : Nat) (ok : Nat → Bool)
    (now : String) :
    ((executeBatchS s n ok now).state.tasks_total = s.tasks_total ∧
      (executeBatchS s n ok now).state.tasks_completed = s.tasks_completed ∧
      (executeBatchS s n ok now).state.tasks_failed = s.tasks_failed) ∧
    (executeBatchS s n ok now).state.current_phase_tasks.length
        = s.current_phase_tasks.length ∧
    ∀ i,
      taskAt (executeBatchS s n ok now).state.current_phase_tasks i =
        (if isPending (taskAt s.current_phase_tasks i) = true ∧
            pendBefore s.current_phase_tasks i < n ∧
            ok (pendBefore s.current_phase_tasks i) = true
         then procTask (taskAt s.current_phase_tasks i) now
         else taskAt s.current_phase_tasks i) := by
  by_cases hE : ((s.current_phase_tasks.filter isPending).take n).isEmpty = true
  · have hres : executeBatchS s n ok now =
        { state := s, moreWork := !s.current_phase_tasks.all isTerminal, spawned := [] } := by
      simp [executeBatchS, hE]
    rw [hres]
    refine ⟨⟨rfl, rfl, rfl⟩, rfl, ?_⟩
    intro i
    rcases List.take_eq_nil_iff.mp (List.isEmpty_iff.mp hE) with hn | hf
    · rw [if_neg]
      intro hcond
      rw [hn] at hcond
      exact Nat.not_lt_zero _ hcond.2.1
    · rw [if_neg]
      intro hcond
      rw [no_pending_of_filter_nil s.current_phase_tasks hf i] at hcond
      exact absurd hcond.1 (by simp)
  · have hres : executeBatchS s n ok now =
        { state := { s with current_phase_tasks := markSpawned s.current_phase_tasks 0 n ok now }
          moreWork := true
          spawned := (s.current_phase_tasks.filter isPending).take n } := by
      simp [executeBatchS, hE]
    rw [hres]
    refine ⟨⟨rfl, rfl, rfl⟩, markSpawned_length _ 0 n ok now, ?_⟩
    intro i
    have hchar := markSpawned_taskAt s.current_phase_tasks 0 n ok now i
    rw [Nat.zero_add] at hchar
    exact hchar

/-- The looked-up task carries the key it was looked up under. -/
theorem findTask_id (l : List Task) (taskId : String) (t : Task)
    (h : findTask l taskId = some t) : t.task_id = taskId := by
  unfold findTask at h
  have hp := List.find?_some h
  exact of_decide_eq_true hp

/-- Replacing the entry under a key and looking that key up again yields the new
task, provided the key was present and the new task keeps the key. -/
theorem findTask_replaceTask (l : List Task) (taskId : String) (t2 : Task)
    (hid : t2.task_id = taskId) :
    ∀ t, findTask l taskId = some t →
      findTask (replaceTask l taskId t2) taskId = some t2 := by
  induction l with
  | nil =>
    intro t h
    exact absurd h (by simp [findTask])
  | cons a rest ih =>
    intro t h
    by_cases ha : a.task_id = taskId
    · have hrep : replaceTask (a :: rest) taskId t2 = t2 :: rest := by
        simp [replaceTask, ha]
      rw [hrep]
      simp [findTask, hid]
    · have hrep : replaceTask (a :: rest) taskId t2 = a :: replaceTask rest taskId t2 := by
        simp [replaceTask, ha]
      rw [hrep]
      have hfind : findTask (a :: rest) taskId = findTask rest taskId := by
        simp [findTask, ha]
      rw [hfind] at h
      have hres := ih t h
      unfold findTask at hres ⊢
      rw [List.find?_cons_of_neg _ (by simp [ha])]
      exact hres

/-- A callback whose task id is not in the map is dropped. -/
theorem handleCallbackDO_absent (s : BatchState) (taskId : String)
    (r : TiffCallbackResult) (maxR : Nat) (now : String)
    (h : findTask s.current_phase_tasks taskId = none) :
    handleCallbackDO s taskId r maxR now = s := by
  unfold handleCallbackDO
  simp only [h]

/-- A callback for a task already terminal is dropped without touching the
state. -/
theorem handleCallbackDO_terminal (s : BatchState) (taskId : String)
    (r : TiffCallbackResult) (maxR : Nat) (now : String) (t : Task)
    (h : findTask s.current_phase_tasks taskId = some t)
    (ht : t.status = TaskStatus.completed ∨ t.status = TaskStatus.failed) :
    handleCallbackDO s taskId r maxR now = s := by
  unfold handleCallbackDO
  simp only [h]
  rw [if_pos ht]

/-- C1: reconciliation of a worker-reported error, through the spec-modelled
orchestrator fold around the source phase fold. While the task's retry budget is
not exhausted, the task goes back to pending with retry_count incremented and no
batch counter moves, so the next alarm respawns it; once the budget is exhausted,
the task is marked failed with the callback's error and tasks_failed is
incremented, the completed counter and total staying put. -/
theorem handleCallback_error_retry_policy (s : BatchState) (taskId : String)
    (r : TiffCallbackResult) (maxR : Nat) (now : String) (t : Task)
    (hf : findTask s.current_phase_tasks taskId = some t)
    (hnt : ¬(t.status = TaskStatus.completed ∨ t.status = TaskStatus.failed))
    (he : r.status = CbStatus.error) :
    (t.retry_count < maxR →
      findTask (handleCallbackDO s taskId r maxR now).current_phase_tasks taskId =
          some { t with retry_count := t.retry_count + 1, status := TaskStatus.pending } ∧
        (handleCallbackDO s taskId r maxR now).tasks_failed = s.tasks_failed ∧
        (handleCallbackDO s taskId r maxR now).tasks_completed = s.tasks_completed ∧
        (handleCallbackDO s taskId r maxR now).tasks_total = s.tasks_total) ∧
    (maxR ≤ t.retry_count →
      findTask (handleCallbackDO s taskId r maxR now).current_phase_tasks taskId =
          some { t with status := TaskStatus.failed, error := r.error } ∧
        (handleCallbackDO s taskId r maxR now).tasks_failed = s.tasks_failed + 1 ∧
        (handleCallbackDO s taskId r maxR now).tasks_completed = s.tasks_completed ∧
        (handleCallbackDO s taskId r maxR now).tasks_total = s.tasks_total) := by
  constructor
  · intro hlt
    have hres : handleCallbackDO s taskId r maxR now =
        { s with current_phase_tasks := replaceTask s.current_phase_tasks taskId ({ t with retry_count := t.retry_count + 1, status := TaskStatus.pending }) } := by
      unfold handleCallbackDO
      simp only [hf]
      rw [if_neg hnt, if_pos ⟨he, hlt⟩]
    rw [hres]
    exact ⟨findTask_replaceTask _ taskId _ (findTask_id s.current_phase_tasks taskId t hf) t hf, rfl, rfl, rfl⟩
  · intro hge
    have hcond : ¬(r.status = CbStatus.error ∧ t.retry_count < maxR) := by
      intro hc
      exact absurd hc.2 (Nat.not_lt.mpr hge)
    have hres : handleCallbackDO s taskId r maxR now =
        { s with
            tasks_failed := s.tasks_failed + 1
            current_phase_tasks := replaceTask s.current_phase_tasks taskId ({ t with status := TaskStatus.failed, error := r.error }) } := by
      unfold handleCallbackDO
      simp only [hf]
      rw [if_neg hnt, if_neg hcond]
      simp [handleCallbackPhase, he]
    rw [hres]
    exact ⟨findTask_replaceTask _ taskId _ (findTask_id s.current_phase_tasks taskId t hf) t hf, rfl, rfl, rfl⟩

/-- The processing task of the worker-error scenario. -/
def taskW : Task :=
  { task_id := "t1"
    status := TaskStatus.processing
    input_r2_key := "s/B1/a.tiff"
    input_file_name := "a.tiff"
    retry_count := 0 }

/-- A one-task batch in flight. -/
def stateW : BatchState :=
  { batch_id := "B1"
    tasks_total := 1
    tasks_completed := 0
    tasks_failed := 0
    current_phase_tasks := [taskW] }

/-- The worker-error callback of the spec's retry scenario. -/
def errCb : TiffCallbackResult :=
  { task_id := "t1"
    batch_id := "B1"
    status := CbStatus.error
    error := some "sharp failure" }

/-- Witness for C1: the first worker error on a fresh task sends it back to
pending with retry_count 1 and leaves tasks_failed at 0. -/
theorem handleCallback_error_retry_policy_inst :
    findTask (handleCallbackDO stateW "t1" errCb 5 "T").current_phase_tasks "t1" =
        some { taskW with retry_count := 1, status := TaskStatus.pending } ∧
      (handleCallbackDO stateW "t1" errCb 5 "T").tasks_failed = 0 := by
  have h := handleCallback_error_retry_policy stateW "t1" errCb 5 "T" taskW
    (by decide) (by decide) (by decide)
  obtain ⟨h1, h2, h3, h4⟩ := h.1 (by decide)
  exact ⟨h1, h2⟩

/-- C2 counterexample: applying the same error callback twice for the same task
id does not equal applying it once: the first application resets the task to
pending with retry_count 1, so the duplicate consumes a second unit of retry
budget and yields retry_count 2, a different BatchState. -/
theorem duplicate_error_callback_not_idempotent :
    handleCallbackDO (handleCallbackDO stateW "t1" errCb 5 "T") "t1" errCb 5 "T" ≠
      handleCallbackDO stateW "t1" errCb 5 "T" := by
  decide

/-- C2 amended: the idempotent-discard half of the claim holds: a callback for a
task already terminal leaves the BatchState (task map and counters) unchanged.
Consequently duplicates of a callback that drives its task to a terminal state
are absorbed: applying a success callback twice, or an error callback twice when
the task's retry budget is already exhausted, equals applying it once. Only a
duplicate error callback within the retry budget re-mutates the state (see the
counterexample). -/
theorem handleCallback_terminal_discard_idem (s : BatchState) (taskId : String)
    (r : TiffCallbackResult) (maxR : Nat) (now : String) :
    (∀ t, findTask s.current_phase_tasks taskId = some t →
        (t.status = TaskStatus.completed ∨ t.status = TaskStatus.failed) →
        handleCallbackDO s taskId r maxR now = s) ∧
      (r.status = CbStatus.success →
        handleCallbackDO (handleCallbackDO s taskId r maxR now) taskId r maxR now =
          handleCallbackDO s taskId r maxR now) ∧
      (r.status = CbStatus.error →
        (∀ t, findTask s.current_phase_tasks taskId = some t → maxR ≤ t.retry_count) →
        handleCallbackDO (handleCallbackDO s taskId r maxR now) taskId r maxR now =
          handleCallbackDO s taskId r maxR now) := by
  refine ⟨?_, ?_, ?_⟩
  · intro t hf ht
    exact handleCallbackDO_terminal s taskId r maxR now t hf ht
  · intro hs
    cases hf : findTask s.current_phase_tasks taskId with
    | none =>
      have h1 := handleCallbackDO_absent s taskId r maxR now hf
      rw [h1]
      exact h1
    | some t =>
      by_cases ht : t.status = TaskStatus.completed ∨ t.status = TaskStatus.failed
      · have h1 := handleCallbackDO_terminal s taskId r maxR now t hf ht
        rw [h1]
        exact h1
      · have hcond : ¬(r.status = CbStatus.error ∧ t.retry_count < maxR) := by
          intro hc
          rw [hs] at hc
          exact absurd hc.1 (by decide)
        have hres : handleCallbackDO s taskId r maxR now =
            { s with
                tasks_completed := s.tasks_completed + 1
                current_phase_tasks := replaceTask s.current_phase_tasks taskId ({ t with status := TaskStatus.completed, output_r2_key := r.output_r2_key, output_file_name := r.output_file_name, output_file_size := r.output_file_size, completed_at := some now }) } := by
          unfold handleCallbackDO
          simp only [hf]
          rw [if_neg ht, if_neg hcond]
          simp [handleCallbackPhase, hs]
        rw [hres]
        exact handleCallbackDO_terminal _ taskId r maxR now _
          (findTask_replaceTask _ taskId _ (findTask_id s.current_phase_tasks taskId t hf) t hf) (Or.inl rfl)
  · intro hs hbudget
    cases hf : findTask s.current_phase_tasks taskId with
    | none =>
      have h1 := handleCallbackDO_absent s taskId r maxR now hf
      rw [h1]
      exact h1
    | some t =>
      by_cases ht : t.status = TaskStatus.completed ∨ t.status = TaskStatus.failed
      · have h1 := handleCallbackDO_terminal s taskId r maxR now t hf ht
        rw [h1]
        exact h1
      · have hcond : ¬(r.status = CbStatus.error ∧ t.retry_count < maxR) := by
          intro hc
          exact absurd hc.2 (Nat.not_lt.mpr (hbudget t hf))
        have hres : handleCallbackDO s taskId r maxR now =
            { s with
                tasks_failed := s.tasks_failed + 1
                current_phase_tasks := replaceTask s.current_phase_tasks taskId ({ t with status := TaskStatus.failed, error := r.error }) } := by
          unfold handleCallbackDO
          simp only [hf]
          rw [if_neg ht, if_neg hcond]
          simp [handleCallbackPhase, hs]
        rw [hres]
        exact handleCallbackDO_terminal _ taskId r maxR now _
          (findTask_replaceTask _ taskId _ (findTask_id s.current_phase_tasks taskId t hf) t hf) (Or.inr rfl)

/-- The push-if-qualifying loop of discover over one file list appends the
filtered and mapped files to the accumulator. -/
theorem foldl_push_filter (g : QueueFileInfo → Task) (p : QueueFileInfo → Bool) :
    ∀ (files : List QueueFileInfo) (acc : List Task),
      files.foldl (fun a f => if p f then a ++ [g f] else a) acc =
        acc ++ (files.filter p).map g := by
  intro files
  induction files with
  | nil => intro acc; simp
  | cons f rest ih =>
    intro acc
    by_cases hp : p f = true
    · simp [List.foldl_cons, hp, ih, List.filter_cons, List.append_assoc]
    · simp [List.foldl_cons, hp, ih, List.filter_cons]

/-- The outer directory loop of discover accumulates the qualifying files of all
directories in scan order. -/
theorem foldl_dirs (g : QueueFileInfo → Task) (p : QueueFileInfo → Bool) :
    ∀ (dirs : List DirectoryGroup) (acc : List Task),
      dirs.foldl
          (fun a d => d.files.foldl (fun a2 f => if p f then a2 ++ [g f] else a2) a) acc =
        acc ++ (dirs.flatMap (fun d => d.files.filter p)).map g := by
  intro dirs
  induction dirs with
  | nil => intro acc; simp
  | cons d rest ih =>
    intro acc
    rw [List.foldl_cons, foldl_push_filter g p d.files acc, ih]
    simp [List.append_assoc]

/-- discover is exactly the task constructor mapped over the qualifying files. -/
theorem discover_eq_map (m : QueueMessage) :
    discover m = (qualifyingFiles m).map (mkTiffTask m.batch_id) := by
  unfold discover qualifyingFiles
  rw [foldl_dirs (mkTiffTask m.batch_id) (fun f => isTiff f.file_name) m.directories []]
  simp

/-- C5: discover emits exactly one task per file across all directories whose
name isTiff accepts (ends in .tif or .tiff case-insensitively): the task list is
the map of the task constructor over the qualifying files, every emitted task is
pending with retry_count 0, input key and name copied from its file, and task id
generateTaskId of the batch id and the file's r2 key; no other file contributes a
task, and the task list is a function of the message alone, so identical input
messages yield identical task sets. -/
theorem discover_tiff_tasks_exact (m : QueueMessage) :
    discover m = (qualifyingFiles m).map (mkTiffTask m.batch_id) ∧
      ∀ t ∈ discover m,
        t.status = TaskStatus.pending ∧ t.retry_count = 0 ∧
          ∃ f ∈ qualifyingFiles m, isTiff f.file_name = true ∧
            t.input_r2_key = f.r2_key ∧ t.input_file_name = f.file_name ∧
            t.task_id = generateTaskId m.batch_id f.r2_key := by
  refine ⟨discover_eq_map m, ?_⟩
  intro t ht
  rw [discover_eq_map m] at ht
  obtain ⟨f, hf, rfl⟩ := List.mem_map.mp ht
  refine ⟨rfl, rfl, f, hf, ?_, rfl, rfl, rfl⟩
  unfold qualifyingFiles at hf
  obtain ⟨d, hd, hfd⟩ := List.mem_flatMap.mp hf
  exact (List.mem_filter.mp hfd).2

/-- C8 amended: the callback endpoint answers 200 with ok true exactly when both
path ids are present and the body parses as JSON; it answers 400, mutating no
state, when the batch or task id is missing from the path. But a malformed JSON
body is not answered with a 4xx: the request.json() rejection propagates to the
catch-all handler, which answers 500, still mutating no state. -/
theorem callbackRoute_status_characterization (pathname : String)
    (body : Option TiffCallbackResult) :
    (((splitSlash pathname).getD 2 "" = "" ∨ (splitSlash pathname).getD 3 "" = "") →
        callbackRoute pathname body = { status := 400, mutated := false }) ∧
      (¬((splitSlash pathname).getD 2 "" = "" ∨ (splitSlash pathname).getD 3 "" = "") →
        body = none →
        callbackRoute pathname body = { status := 500, mutated := false }) ∧
      (¬((splitSlash pathname).getD 2 "" = "" ∨ (splitSlash pathname).getD 3 "" = "") →
        ∀ p, body = some p →
        callbackRoute pathname body = { status := 200, mutated := true }) := by
  refine ⟨?_, ?_, ?_⟩
  · intro h
    simp only [callbackRoute]
    rw [if_pos h]
  · intro h hb
    simp only [callbackRoute]
    rw [if_neg h, hb]
  · intro h p hb
    simp only [callbackRoute]
    rw [if_neg h, hb]

/-- C8 counterexample: a POST to the callback route with a well-formed path but a
body that is not valid JSON is answered 500 by the catch-all handler, not a 4xx
status, contradicting the claim that exactly the malformed-path and
malformed-body cases get a 4xx and that the endpoint never answers 5xx. -/
theorem malformed_json_yields_500 :
    (callbackRoute "/callback/B1/T1" none).status = 500 ∧
      ¬(400 ≤ (callbackRoute "/callback/B1/T1" none).status ∧
        (callbackRoute "/callback/B1/T1" none).status < 500) ∧
      (callbackRoute "/callback/B1/T1" none).mutated = false := by
  exact ⟨by decide, by decide, by decide⟩

end Arke
